import Mathlib

/-!
Verification of the capability-detection and reconciliation engine of the
cudadoctor repository, embedded shallowly from `src/lib.rs`.

External effects are modelled as oracles supplied to the embedded functions:

* `Env` models the process runner `run_command` (src/lib.rs:52-83): it maps a
  command line to the captured stdout when the process exits with status 0,
  and to an error message otherwise.  Detection code observes the runner only
  through this mapping.
* `Probe` bundles the runner with the filesystem and environment-variable
  oracles used by the cuDNN and CUDA-toolkit detectors (directory walks,
  file-existence tests, `LD_LIBRARY_PATH` entries).  The Linux build of the
  crate (`cfg(target_os = "linux")`) is the one embedded.

Rust string primitives (`str::trim`, `str::contains`, `str::lines`,
`str::split_whitespace`, `str::split`, `str::starts_with`) are modelled over
`List Char` (`String.data`), following Rust semantics.  The two regular
expressions used by the toolkit detector are literal-marker-plus-dotted-number
patterns; on such patterns the regex engine's leftmost greedy match coincides
with a maximal-munch scan, which is what `findCapture` implements.

`f64` values (total memory, GPU memory) are modelled as exact rationals:
`serde_json` round-trips every finite double exactly, and no claim depends on
rounding behaviour.
-/

namespace CudaDoctor

/-! ## Rust string primitives over `List Char` -/

/-- Model of Rust `str::contains`: `pat` occurs contiguously in `hay`. -/
def listContains (hay pat : List Char) : Bool :=
  pat.isPrefixOf hay ||
    match hay with
    | [] => false
    | _ :: t => listContains t pat

/-- Model of Rust `str::trim`: drop whitespace from both ends. -/
def listTrim (l : List Char) : List Char :=
  ((l.dropWhile Char.isWhitespace).reverse.dropWhile Char.isWhitespace).reverse

/-- Worker of `listSplitWs`, structurally recursive on a fuel bound so that
it reduces definitionally; the fuel never runs out when it starts at the
list's length. -/
def listSplitWsF : Nat → List Char → List (List Char)
  | 0, _ => []
  | _, [] => []
  | fuel + 1, c :: cs =>
    if c.isWhitespace then listSplitWsF fuel cs
    else (c :: cs.takeWhile (fun d => !d.isWhitespace)) ::
         listSplitWsF fuel (cs.dropWhile (fun d => !d.isWhitespace))

/-- Model of Rust `str::split_whitespace`: maximal runs of non-whitespace. -/
def listSplitWs (l : List Char) : List (List Char) :=
  listSplitWsF l.length l

/-- Strip one trailing carriage return (Rust `str::lines` does this per line). -/
def stripCR (l : List Char) : List Char :=
  if l.getLast? = some '\r' then l.dropLast else l

/-- Model of Rust `str::lines`: split at newlines, the final line ending
optional, each line stripped of a trailing carriage return. -/
def listLines (l : List Char) : List (List Char) :=
  if l = [] then []
  else
    let parts := l.splitOn '\n'
    (if l.getLast? = some '\n' then parts.dropLast else parts).map stripCR

/-! String-level wrappers used by the embedded detector code. -/

/-- Rust `haystack.contains(pat)`. -/
def containsSub (hay pat : String) : Bool := listContains hay.data pat.data

/-- Rust `s.trim()`. -/
def rustTrim (s : String) : String := ⟨listTrim s.data⟩

/-- Rust `s.is_empty()`. -/
def rustIsEmpty (s : String) : Bool := s.data.isEmpty

/-- Rust `s.lines()` (collected). -/
def rustLines (s : String) : List String := (listLines s.data).map String.mk

/-- Rust `s.split_whitespace()` (collected). -/
def rustSplitWs (s : String) : List String := (listSplitWs s.data).map String.mk

/-- Rust `s.split(sep)` (collected); empty pieces are kept. -/
def rustSplit (sep : Char) (s : String) : List String :=
  (s.data.splitOn sep).map String.mk

/-- Rust `s.starts_with(pre)`. -/
def rustStartsWith (s pre : String) : Bool := pre.data.isPrefixOf s.data

/-! ## The two regular-expression shapes used by the toolkit detector

`release (\d+\.\d+)`, `V(\d+\.\d+\.\d+)` and `CUDA Version (\d+\.\d+)` are a
literal marker followed by a dotted number.  A digit never matches a literal
dot, so the engine's greedy backtracking coincides with maximal munch, and
leftmost matching is a left-to-right scan of start positions. -/

/-- Regex `\d+` anchored at the head: the maximal digit run and the rest,
`none` when the head is not a digit. -/
def matchDigits (l : List Char) : Option (List Char × List Char) :=
  let d := l.takeWhile Char.isDigit
  if d.isEmpty then none else some (d, l.dropWhile Char.isDigit)

/-- Regex `\d+(\.\d+)^(n-1)` anchored at the head (`n` numeric components
joined by dots); returns the matched characters. -/
def matchDotted : Nat → List Char → Option (List Char)
  | 0, _ => none
  | 1, l => (matchDigits l).map Prod.fst
  | n + 2, l =>
    match matchDigits l with
    | none => none
    | some (d, rest) =>
      match rest with
      | '.' :: rest2 =>
        match matchDotted (n + 1) rest2 with
        | none => none
        | some tail => some (d ++ '.' :: tail)
      | _ => none

/-- Model of `Regex::captures` for a pattern `marker(\d+(\.\d+)^(n-1))`:
scan start positions left to right, require the literal marker, then the
dotted number; the returned characters are capture group 1. -/
def findCapture (marker : List Char) (n : Nat) : List Char → Option (List Char)
  | [] =>
    if marker.isPrefixOf ([] : List Char) then matchDotted n [] else none
  | c :: t =>
    match (if marker.isPrefixOf (c :: t) then
             matchDotted n ((c :: t).drop marker.length)
           else none) with
    | some r => some r
    | none => findCapture marker n t

/-- `re.captures(s)` followed by `captures[1].to_string()` for the patterns
above, at the `String` level. -/
def captureGroup (marker : String) (n : Nat) (s : String) : Option String :=
  (findCapture marker.data n s.data).map String.mk

/-! ## The probe oracles -/

/-- Outcome map of `run_command` (src/lib.rs:52-83): the command's captured
stdout on a zero exit status, an error message otherwise. -/
abbrev Env := String → Except String String

/-- One probing strategy of a linear fallback chain: the command line handed
to `run_command` and the pure parser applied to its stdout. -/
abbrev ProbeStrategy := String × (String → Option String)

/-- The token a strategy yields under runner `env`: `none` when the probe
fails or its output does not parse. -/
def stratSucceeds (env : Env) (s : ProbeStrategy) : Option String :=
  match env s.1 with
  | .ok out => s.2 out
  | .error _ => none

/-- The linear fallback over an ordered strategy list, the shape of every
`for method in methods { match run_command(..) { Ok => .. return, Err =>
continue } }` loop in the detectors: the first parsed token wins, probe
failures and unparsed successes fall through, and the constant error message
is produced when the list is exhausted. -/
def chainRun (env : Env) (strategies : List ProbeStrategy) (errMsg : String) :
    Except String String :=
  match strategies with
  | [] => .error errMsg
  | s :: rest =>
    match stratSucceeds env s with
    | some v => .ok v
    | none => chainRun env rest errMsg

/-! ## Capability parsers and package-manager helpers -/

/-- The acceptance test the framework detectors apply to the stdout of a
python-interpreter probe (src/lib.rs:139-146 and 184-191): trim, then accept
the whole trimmed text iff it is nonempty and contains none of the substrings
"not found", "No module", "WARNING". -/
def pyProbeParse (output : String) : Option String :=
  let output := rustTrim output
  if !rustIsEmpty output && !containsSub output "not found" &&
     !containsSub output "No module" && !containsSub output "WARNING" then
    some output
  else none

/-- The not-found notice `pip show` prints for an absent package. -/
def pipSentinel : String := "WARNING: Package(s) not found"

/-- Version extraction from `pip show` stdout (src/lib.rs:89-99): trim;
reject empty output and output containing the not-found warning; otherwise
take the first line containing "Version:", split it at every colon, take
field 1 (or "" when there is none), trim it, and succeed iff it is
nonempty. -/
def pipShowParse (output : String) : Option String :=
  let output := rustTrim output
  if !rustIsEmpty output && !containsSub output pipSentinel then
    match (rustLines output).find? (fun line => containsSub line "Version:") with
    | some version_line =>
      let version := rustTrim ((rustSplit ':' version_line).getD 1 "")
      if !rustIsEmpty version then some version else none
    | none => none
  else none

/-- `get_pip_package_version` (src/lib.rs:86-104): run `{pip_cmd} show
{package_name}` and apply `pipShowParse`; command failures propagate their
message, parse failures report the package as not found. -/
def get_pip_package_version (package_name pip_cmd : String) (env : Env) :
    Except String String :=
  let command := pip_cmd ++ " show " ++ package_name
  match env command with
  | .ok output =>
    match pipShowParse output with
    | some version => .ok version
    | none =>
      .error ("Package " ++ package_name ++ " not found with " ++ pip_cmd)
  | .error e => .error e

/-- Version extraction from `conda list` stdout (src/lib.rs:110-120): trim;
reject empty output; otherwise take the first line starting with the package
name, split it on whitespace, and succeed with field 1 iff there are at
least two fields.  There is no not-found sentinel test on this path. -/
def condaListParse (package_name output : String) : Option String :=
  let output := rustTrim output
  if !rustIsEmpty output then
    match (rustLines output).find? (fun line => rustStartsWith line package_name) with
    | some package_line =>
      let parts := rustSplitWs package_line
      if parts.length ≥ 2 then some (parts.getD 1 "") else none
    | none => none
  else none

/-- `get_conda_package_version` (src/lib.rs:107-125): run `conda list
{package_name}` and apply `condaListParse`. -/
def get_conda_package_version (package_name : String) (env : Env) :
    Except String String :=
  let command := "conda list " ++ package_name
  match env command with
  | .ok output =>
    match condaListParse package_name output with
    | some version => .ok version
    | none => .error ("Package " ++ package_name ++ " not found with conda")
  | .error e => .error e

/-! ## Framework detection facades (src/lib.rs:127-220) -/

/-- The first python probe of `get_tensorflow_version` (src/lib.rs:130). -/
def tfPyCmd : String :=
  "python -c \"import tensorflow as tf; print(tf.__version__)\""

/-- The second python probe of `get_tensorflow_version` (src/lib.rs:131). -/
def tfPy3Cmd : String :=
  "python3 -c \"import tensorflow as tf; print(tf.__version__)\""

/-- The ordered strategy chain of `get_tensorflow_version`
(src/lib.rs:127-171): two python-interpreter probes, then `pip`/`pip3 show
tensorflow`, then `conda list tensorflow`. -/
def tfStrategies : List ProbeStrategy :=
  [(tfPyCmd, pyProbeParse),
   (tfPy3Cmd, pyProbeParse),
   ("pip show tensorflow", pipShowParse),
   ("pip3 show tensorflow", pipShowParse),
   ("conda list tensorflow", condaListParse "tensorflow")]

/-- `get_tensorflow_version` (src/lib.rs:127-171): the linear fallback over
`tfStrategies`; every strategy failure is discarded and the exhausted chain
reports the fixed not-found message.  Each loop of the source returns the
first strategy whose probe succeeds and whose output parses, so the whole
function is `chainRun` over the concatenated strategy list. -/
def get_tensorflow_version (env : Env) : Except String String :=
  chainRun env tfStrategies "TensorFlow not found or not installed"

/-- The first python probe of `get_pytorch_version` (src/lib.rs:176). -/
def ptPyCmd : String := "python -c \"import torch; print(torch.__version__)\""

/-- The second python probe of `get_pytorch_version` (src/lib.rs:177). -/
def ptPy3Cmd : String := "python3 -c \"import torch; print(torch.__version__)\""

/-- The ordered strategy chain of `get_pytorch_version` (src/lib.rs:173-220):
two python-interpreter probes, `pip`/`pip3 show torch`, then `conda list
pytorch` and `conda list torch`. -/
def ptStrategies : List ProbeStrategy :=
  [(ptPyCmd, pyProbeParse),
   (ptPy3Cmd, pyProbeParse),
   ("pip show torch", pipShowParse),
   ("pip3 show torch", pipShowParse),
   ("conda list pytorch", condaListParse "pytorch"),
   ("conda list torch", condaListParse "torch")]

/-- `get_pytorch_version` (src/lib.rs:173-220). -/
def get_pytorch_version (env : Env) : Except String String :=
  chainRun env ptStrategies "PyTorch not found or not installed"

/-! ## cuDNN detection (src/lib.rs:222-345), Linux build -/

/-- `extract_cudnn_version_from_header` (src/lib.rs:321-345) applied to the
header file's text (the `fs::read_to_string` boundary is an oracle; a read
failure behaves like text that fails to parse — both make the caller
continue).  Each of the three directives is located independently as the
first line containing it, and its value is that line's last
whitespace-separated field; the dotted version is produced iff all three
values are nonempty. -/
def extract_cudnn_version_from_header (content : String) : Except String String :=
  let major := (((rustLines content).find?
      (fun line => containsSub line "#define CUDNN_MAJOR")).bind
      (fun line => (rustSplitWs line).getLast?)).getD ""
  let minor := (((rustLines content).find?
      (fun line => containsSub line "#define CUDNN_MINOR")).bind
      (fun line => (rustSplitWs line).getLast?)).getD ""
  let patch := (((rustLines content).find?
      (fun line => containsSub line "#define CUDNN_PATCHLEVEL")).bind
      (fun line => (rustSplitWs line).getLast?)).getD ""
  if !rustIsEmpty major && !rustIsEmpty minor && !rustIsEmpty patch then
    .ok (major ++ "." ++ minor ++ "." ++ patch)
  else
    .error "Could not parse cuDNN version from header"

/-- The first header text in the list that parses; later ones are not
consulted (each `if let Ok(version) = extract_... { return Ok(version) }`
loop of src/lib.rs:255-287). -/
def scanHeaders : List String → Option String
  | [] => none
  | c :: rest =>
    match extract_cudnn_version_from_header c with
    | .ok v => some v
    | .error _ => scanHeaders rest

/-- The acceptance test applied to python-derived version probes whose
output may be the text "None" (src/lib.rs:290-316, 386-412): trim, then
accept iff nonempty and not "None". -/
def pyNoneParse (output : String) : Option String :=
  let version_str := rustTrim output
  if !rustIsEmpty version_str && version_str ≠ "None" then some version_str
  else none

/-- The filesystem and environment oracles of the Linux build, alongside the
process runner.  `headerContentAt p` is the text of the file at path `p`
when it exists (the `path.exists()` test plus read of src/lib.rs:255-267);
`findCudnnHeaders root` lists, in walk order, the texts of the files named
`cudnn_version.h` under `root` (the `WalkDir` loop of src/lib.rs:271-287);
`pathDirs` is the split `PATH`; `nvccExists p` is `Path::exists` for the
candidate `nvcc` binary (src/lib.rs:448-451); `findNvcc root` lists, in walk
order, the paths of files named `nvcc` or `nvcc.exe` under `root`
(src/lib.rs:471-495). -/
structure Probe where
  run : Env
  ldLibraryPath : List String
  headerContentAt : String → Option String
  findCudnnHeaders : String → List String
  pathDirs : List String
  nvccExists : String → Bool
  findNvcc : String → List String

/-- The cuDNN search roots of the Linux build (src/lib.rs:249-252). -/
def cudnnSearchPaths : List String :=
  ["/usr/local/cuda", "/opt/cuda", "/usr/include", "/usr/local/include"]

/-- The four python fallback probes of `get_cudnn_version`
(src/lib.rs:290-316). -/
def cudnnPyStrategies : List ProbeStrategy :=
  [("python -c \"import torch; print(torch.backends.cudnn.version())\"", pyNoneParse),
   ("python3 -c \"import torch; print(torch.backends.cudnn.version())\"", pyNoneParse),
   ("python -c \"import tensorflow as tf; print(tf.sysconfig.get_build_info()['cudnn_version'])\"", pyNoneParse),
   ("python3 -c \"import tensorflow as tf; print(tf.sysconfig.get_build_info()['cudnn_version'])\"", pyNoneParse)]

/-- `get_cudnn_version` (src/lib.rs:222-319), Linux build: first the
`LD_LIBRARY_PATH` directories that hold a `cudnn_version.h`, then a walk of
the four standard roots, then the four python probes. -/
def get_cudnn_version (probe : Probe) : Except String String :=
  match scanHeaders (probe.ldLibraryPath.filterMap
      (fun p => probe.headerContentAt (p ++ "/cudnn_version.h"))) with
  | some v => .ok v
  | none =>
    match scanHeaders (cudnnSearchPaths.flatMap probe.findCudnnHeaders) with
    | some v => .ok v
    | none => chainRun probe.run cudnnPyStrategies "cuDNN version not found"

/-! ## CUDA toolkit detection (src/lib.rs:347-498), Linux build -/

/-- The parser of the three fixed `nvcc --version` probes
(src/lib.rs:360-371): regex `release (\d+\.\d+)` first, then the alternate
pattern `V(\d+\.\d+\.\d+)`. -/
def nvccParse (output : String) : Option String :=
  match captureGroup "release " 2 output with
  | some v => some v
  | none => captureGroup "V" 3 output

/-- The parser of the `version.txt` probe (src/lib.rs:378-383): regex
`CUDA Version (\d+\.\d+)`. -/
def versionTxtParse (output : String) : Option String :=
  captureGroup "CUDA Version " 2 output

/-- The parser of the discovered-`nvcc` probes (src/lib.rs:456-461 and
484-489): regex `release (\d+\.\d+)` only. -/
def releaseOnlyParse (output : String) : Option String :=
  captureGroup "release " 2 output

/-- The toolkit filesystem search roots of the Linux build
(src/lib.rs:445-446). -/
def toolkitSearchPaths : List String := ["/usr/local/cuda", "/opt/cuda"]

/-- The ordered strategy chain of `get_cuda_toolkit_version`
(src/lib.rs:347-498), Linux build: the three fixed `nvcc` commands, the
`version.txt` probe, four python probes, then one probe per `PATH` directory
holding an `nvcc`, then one probe per `nvcc` found by walking the search
roots.  The tail of the chain is computed from the filesystem oracles
exactly as the source's loops enumerate candidates. -/
def toolkitStrategies (probe : Probe) : List ProbeStrategy :=
  [("nvcc --version", nvccParse),
   ("/usr/local/cuda/bin/nvcc --version", nvccParse),
   ("/opt/cuda/bin/nvcc --version", nvccParse),
   ("cat /usr/local/cuda/version.txt", versionTxtParse),
   ("python -c \"import torch; print(torch.version.cuda)\"", pyNoneParse),
   ("python3 -c \"import torch; print(torch.version.cuda)\"", pyNoneParse),
   ("python -c \"import tensorflow as tf; print(tf.sysconfig.get_build_info()['cuda_version'])\"", pyNoneParse),
   ("python3 -c \"import tensorflow as tf; print(tf.sysconfig.get_build_info()['cuda_version'])\"", pyNoneParse)]
  ++ (probe.pathDirs.filter (fun p => probe.nvccExists (p ++ "/nvcc"))).map
       (fun p => (p ++ "/nvcc --version", releaseOnlyParse))
  ++ (toolkitSearchPaths.flatMap probe.findNvcc).map
       (fun p => ("\"" ++ p ++ "\" --version", releaseOnlyParse))

/-- `get_cuda_toolkit_version` (src/lib.rs:347-498), Linux build. -/
def get_cuda_toolkit_version (probe : Probe) : Except String String :=
  chainRun probe.run (toolkitStrategies probe) "CUDA Toolkit not found"

/-! ## Driver, python and GPU-list probes -/

/-- The single driver probe command (src/lib.rs:573-575). -/
def driverCmd : String :=
  "nvidia-smi --query-gpu=driver_version --format=csv,noheader"

/-- `get_nvidia_driver_version` (src/lib.rs:573-575): the raw `run_command`
result, with no parsing and no trimming. -/
def get_nvidia_driver_version (env : Env) : Except String String :=
  env driverCmd

/-- `get_python_version` (src/lib.rs:1472-1480): `python --version` then
`python3 --version`, the first success trimmed. -/
def get_python_version (env : Env) : Option String :=
  match env "python --version" with
  | .ok output => some (rustTrim output)
  | .error _ =>
    match env "python3 --version" with
    | .ok output => some (rustTrim output)
    | .error _ => none

/-! ## The snapshot data model (src/lib.rs:13-50)

`f64` fields carry exact rationals (see the header comment); the
`chrono::DateTime<Utc>` timestamp is carried as its RFC3339 text, which
`chrono`'s serde support round-trips exactly. -/

/-- `SystemInfo` (src/lib.rs:22-29). -/
structure SystemInfo where
  os : String
  arch : String
  cpu : String
  total_memory_gb : Rat
  python_version : Option String
deriving DecidableEq, Repr

/-- `GpuInfo` (src/lib.rs:39-44). -/
structure GpuInfo where
  name : String
  memory_gb : Option Rat
  compute_capability : Option String
deriving DecidableEq, Repr

/-- `CudaInfo` (src/lib.rs:31-37). -/
structure CudaInfo where
  driver_version : Option String
  cuda_version : Option String
  cudnn_version : Option String
  gpus : List GpuInfo
deriving DecidableEq, Repr

/-- `FrameworkInfo` (src/lib.rs:46-50). -/
structure FrameworkInfo where
  tensorflow : Option String
  pytorch : Option String
deriving DecidableEq, Repr

/-- `EnvironmentConfig` (src/lib.rs:13-20), the fact snapshot. -/
structure EnvironmentConfig where
  system_info : SystemInfo
  cuda_info : CudaInfo
  frameworks : FrameworkInfo
  timestamp : String
  hostname : String
deriving DecidableEq, Repr

/-! ## GPU list and the snapshot builder (src/lib.rs:1436-1499) -/

/-- The numeric value of a digit run. -/
def digitsToNat (l : List Char) : Nat :=
  l.foldl (fun n c => 10 * n + (c.toNat - 48)) 0

/-- Model of Rust `str::parse::<f64>()` on plain decimal literals (optional
sign, integer part, optional fraction) — the only forms
`nvidia-smi --format=csv,noheader,nounits` emits for `memory.total`.  The
value is kept exact as a rational. -/
def parseDecimal (s : String) : Option Rat :=
  match s.data with
  | [] => none
  | l =>
    let signed : Bool × List Char :=
      match l with
      | '-' :: t => (true, t)
      | '+' :: t => (false, t)
      | t => (false, t)
    let ip := signed.2.takeWhile Char.isDigit
    let rest := signed.2.dropWhile Char.isDigit
    let val? : Option Rat :=
      match rest with
      | [] => if ip.isEmpty then none else some (digitsToNat ip : Rat)
      | '.' :: fp =>
        if fp.all Char.isDigit && !(ip.isEmpty && fp.isEmpty) then
          some ((digitsToNat ip : Rat) +
            (digitsToNat fp : Rat) / ((10 : Rat) ^ fp.length))
        else none
      | _ => none
    val?.map (fun v => if signed.1 then -v else v)

/-- `get_gpu_list` (src/lib.rs:1482-1499): one `nvidia-smi` query; each
stdout line is split at commas and trimmed, and yields a device record iff
it has at least two fields — name from field 0, memory from field 1 (MiB
parsed then divided by 1024), and `compute_capability` left `None` (the
source's literal `None, // Would need additional query`).  A failed probe
yields the empty list. -/
def get_gpu_list (env : Env) : List GpuInfo :=
  match env "nvidia-smi --query-gpu=name,memory.total --format=csv,noheader,nounits" with
  | .ok output =>
    (rustLines output).foldl (fun gpus line =>
      let parts := (rustSplit ',' line).map rustTrim
      if parts.length ≥ 2 then
        gpus ++ [{ name := parts.getD 0 "",
                   memory_gb := (parseDecimal (parts.getD 1 "")).map
                     (fun mb => mb / 1024),
                   compute_capability := none }]
      else gpus) []
  | .error _ => []

/-- `collect_environment_config` (src/lib.rs:1436-1470).  The `sysinfo`
readings (OS name, architecture, CPU brand, total memory) and the clock and
hostname readings are external collaborators and enter as parameters;
everything else is computed by the detection facades.  Every fallible
detection result is converted by `Result::ok()` (`Except.toOption`): an
exhausted chain becomes an absent value, never an error, and the builder
is a total function. -/
def collect_environment_config (probe : Probe) (os arch cpu : String)
    (total_memory_gb : Rat) (timestamp hostname : String) : EnvironmentConfig :=
  { system_info :=
      { os := os, arch := arch, cpu := cpu,
        total_memory_gb := total_memory_gb,
        python_version := get_python_version probe.run },
    cuda_info :=
      { driver_version := (get_nvidia_driver_version probe.run).toOption,
        cuda_version := (get_cuda_toolkit_version probe).toOption,
        cudnn_version := (get_cudnn_version probe).toOption,
        gpus := get_gpu_list probe.run },
    frameworks :=
      { tensorflow := (get_tensorflow_version probe.run).toOption,
        pytorch := (get_pytorch_version probe.run).toOption },
    timestamp := timestamp,
    hostname := hostname }

/-! ## The reconciler (src/lib.rs:1501-1539) -/

/-- The five outcome labels `compare_versions` prints: matches / different /
not in import / missing locally / not available in either. -/
inductive VersionComparison where
  | Match
  | Mismatch
  | LocalOnly
  | RemoteOnly
  | BothAbsent
deriving DecidableEq, Repr

/-- The classification `compare_versions` (src/lib.rs:1526-1539) prints for
one component: each branch of the source's `match (current, imported)`
prints exactly one label, and the only comparison applied is `curr == imp`,
Rust string equality. -/
def compare_versions (current imported : Option String) : VersionComparison :=
  match current, imported with
  | some curr, some imp =>
    if curr = imp then .Match else .Mismatch
  | some _, none => .LocalOnly
  | none, some _ => .RemoteOnly
  | none, none => .BothAbsent

/-- The fixed component checklist `compare_environments`
(src/lib.rs:1501-1524) walks, in print order, with each pair's
classification. -/
def compare_environments (current imported : EnvironmentConfig) :
    List (String × VersionComparison) :=
  [("Driver", compare_versions current.cuda_info.driver_version
      imported.cuda_info.driver_version),
   ("CUDA", compare_versions current.cuda_info.cuda_version
      imported.cuda_info.cuda_version),
   ("cuDNN", compare_versions current.cuda_info.cudnn_version
      imported.cuda_info.cudnn_version),
   ("TensorFlow", compare_versions current.frameworks.tensorflow
      imported.frameworks.tensorflow),
   ("PyTorch", compare_versions current.frameworks.pytorch
      imported.frameworks.pytorch)]

/-! ## The snapshot codec (src/lib.rs:1401-1434)

`export_environment` serializes with `serde_json::to_string_pretty` and
`import_environment` parses with `serde_json::from_str::<EnvironmentConfig>`;
both go through the `#[derive(Serialize, Deserialize)]` implementations of
the five structs.  The codec is modelled at the JSON-document level:
`serde_json`'s printer and parser are mutually inverse on documents whose
numbers are finite doubles, so the textual layer adds nothing to the claims.
Derived semantics embedded here: `Serialize` emits every field in
declaration order, with `Option::None` as `null`; `Deserialize` reads fields
by name, silently ignores unknown members (there is no
`deny_unknown_fields`), treats a missing or `null` `Option` field as `None`,
and fails on a missing non-`Option` field or a type mismatch. -/

/-- A JSON document. -/
inductive Json where
  | null
  | bool (b : Bool)
  | num (q : Rat)
  | str (s : String)
  | arr (elems : List Json)
  | obj (fields : List (String × Json))

def encodeOptStr : Option String → Json
  | none => .null
  | some s => .str s

def encodeOptNum : Option Rat → Json
  | none => .null
  | some q => .num q

/-- Derived `Serialize` for `SystemInfo`. -/
def encodeSystemInfo (si : SystemInfo) : Json :=
  .obj [("os", .str si.os), ("arch", .str si.arch), ("cpu", .str si.cpu),
        ("total_memory_gb", .num si.total_memory_gb),
        ("python_version", encodeOptStr si.python_version)]

/-- Derived `Serialize` for `GpuInfo`. -/
def encodeGpuInfo (g : GpuInfo) : Json :=
  .obj [("name", .str g.name), ("memory_gb", encodeOptNum g.memory_gb),
        ("compute_capability", encodeOptStr g.compute_capability)]

/-- Derived `Serialize` for `CudaInfo`. -/
def encodeCudaInfo (ci : CudaInfo) : Json :=
  .obj [("driver_version", encodeOptStr ci.driver_version),
        ("cuda_version", encodeOptStr ci.cuda_version),
        ("cudnn_version", encodeOptStr ci.cudnn_version),
        ("gpus", .arr (ci.gpus.map encodeGpuInfo))]

/-- Derived `Serialize` for `FrameworkInfo`. -/
def encodeFrameworkInfo (fw : FrameworkInfo) : Json :=
  .obj [("tensorflow", encodeOptStr fw.tensorflow),
        ("pytorch", encodeOptStr fw.pytorch)]

/-- Derived `Serialize` for `EnvironmentConfig`: the document
`export_environment` (src/lib.rs:1401-1415) writes. -/
def encodeConfig (c : EnvironmentConfig) : Json :=
  .obj [("system_info", encodeSystemInfo c.system_info),
        ("cuda_info", encodeCudaInfo c.cuda_info),
        ("frameworks", encodeFrameworkInfo c.frameworks),
        ("timestamp", .str c.timestamp),
        ("hostname", .str c.hostname)]

/-- A required member of an object. -/
def reqField (fields : List (String × Json)) (name : String) :
    Except String Json :=
  match fields.lookup name with
  | some j => .ok j
  | none => .error ("missing field " ++ name)

/-- A required string member. -/
def reqStr (fields : List (String × Json)) (name : String) :
    Except String String :=
  match fields.lookup name with
  | some (.str s) => .ok s
  | some _ => .error ("field " ++ name ++ " is not a string")
  | none => .error ("missing field " ++ name)

/-- A required number member. -/
def reqNum (fields : List (String × Json)) (name : String) :
    Except String Rat :=
  match fields.lookup name with
  | some (.num q) => .ok q
  | some _ => .error ("field " ++ name ++ " is not a number")
  | none => .error ("missing field " ++ name)

/-- An `Option<String>` member: absent and `null` both decode to `None`. -/
def optStr (fields : List (String × Json)) (name : String) :
    Except String (Option String) :=
  match fields.lookup name with
  | none => .ok none
  | some .null => .ok none
  | some (.str s) => .ok (some s)
  | some _ => .error ("field " ++ name ++ " is not a string or null")

/-- An `Option<f64>` member: absent and `null` both decode to `None`. -/
def optNum (fields : List (String × Json)) (name : String) :
    Except String (Option Rat) :=
  match fields.lookup name with
  | none => .ok none
  | some .null => .ok none
  | some (.num q) => .ok (some q)
  | some _ => .error ("field " ++ name ++ " is not a number or null")

/-- Derived `Deserialize` for `GpuInfo`. -/
def decodeGpuInfo : Json → Except String GpuInfo
  | .obj fields => do
    let name ← reqStr fields "name"
    let memory_gb ← optNum fields "memory_gb"
    let compute_capability ← optStr fields "compute_capability"
    return { name := name, memory_gb := memory_gb,
             compute_capability := compute_capability }
  | _ => .error "GpuInfo: expected an object"

/-- Derived `Deserialize` for `SystemInfo`. -/
def decodeSystemInfo : Json → Except String SystemInfo
  | .obj fields => do
    let os ← reqStr fields "os"
    let arch ← reqStr fields "arch"
    let cpu ← reqStr fields "cpu"
    let total_memory_gb ← reqNum fields "total_memory_gb"
    let python_version ← optStr fields "python_version"
    return { os := os, arch := arch, cpu := cpu,
             total_memory_gb := total_memory_gb,
             python_version := python_version }
  | _ => .error "SystemInfo: expected an object"

/-- Derived `Deserialize` for `CudaInfo`; the `gpus` vector is a
non-`Option` field and must be present. -/
def decodeCudaInfo : Json → Except String CudaInfo
  | .obj fields => do
    let driver_version ← optStr fields "driver_version"
    let cuda_version ← optStr fields "cuda_version"
    let cudnn_version ← optStr fields "cudnn_version"
    let gpus ←
      match fields.lookup "gpus" with
      | some (.arr elems) => elems.mapM decodeGpuInfo
      | some _ => .error "field gpus is not an array"
      | none => .error "missing field gpus"
    return { driver_version := driver_version, cuda_version := cuda_version,
             cudnn_version := cudnn_version, gpus := gpus }
  | _ => .error "CudaInfo: expected an object"

/-- Derived `Deserialize` for `FrameworkInfo`. -/
def decodeFrameworkInfo : Json → Except String FrameworkInfo
  | .obj fields => do
    let tensorflow ← optStr fields "tensorflow"
    let pytorch ← optStr fields "pytorch"
    return { tensorflow := tensorflow, pytorch := pytorch }
  | _ => .error "FrameworkInfo: expected an object"

/-- Derived `Deserialize` for `EnvironmentConfig`: the decode half of
`import_environment` (src/lib.rs:1418-1434), which surfaces any error as a
failed import. -/
def decodeConfig : Json → Except String EnvironmentConfig
  | .obj fields => do
    let sj ← reqField fields "system_info"
    let system_info ← decodeSystemInfo sj
    let cj ← reqField fields "cuda_info"
    let cuda_info ← decodeCudaInfo cj
    let fj ← reqField fields "frameworks"
    let frameworks ← decodeFrameworkInfo fj
    let timestamp ← reqStr fields "timestamp"
    let hostname ← reqStr fields "hostname"
    return { system_info := system_info, cuda_info := cuda_info,
             frameworks := frameworks, timestamp := timestamp,
             hostname := hostname }
  | _ => .error "EnvironmentConfig: expected an object"

/-! ## Helper lemmas: strategy chains -/

theorem stratSucceeds_congr (env env' : Env) (s : ProbeStrategy)
    (h : env' s.1 = env s.1) : stratSucceeds env' s = stratSucceeds env s := by
  simp only [stratSucceeds, h]

theorem chainRun_exhausted (env : Env) (L : List ProbeStrategy) (msg : String)
    (h : ∀ s ∈ L, stratSucceeds env s = none) :
    chainRun env L msg = .error msg := by
  induction L with
  | nil => rfl
  | cons s rest ih =>
    rw [chainRun, h s (by simp)]
    exact ih fun t ht => h t (by simp [ht])

theorem chainRun_append (env : Env) (pre rest : List ProbeStrategy)
    (msg : String) (h : ∀ s ∈ pre, stratSucceeds env s = none) :
    chainRun env (pre ++ rest) msg = chainRun env rest msg := by
  induction pre with
  | nil => rfl
  | cons s pre ih =>
    rw [List.cons_append, chainRun, h s (by simp)]
    exact ih fun t ht => h t (by simp [ht])

theorem chainRun_cons_ok (env : Env) (s : ProbeStrategy)
    (post : List ProbeStrategy) (msg v : String)
    (h : stratSucceeds env s = some v) :
    chainRun env (s :: post) msg = .ok v := by
  rw [chainRun, h]

theorem chainRun_ok_mem (env : Env) (L : List ProbeStrategy) (msg v : String)
    (h : chainRun env L msg = .ok v) :
    ∃ s ∈ L, stratSucceeds env s = some v := by
  induction L with
  | nil => exact absurd h (by rw [chainRun]; intro hc; cases hc)
  | cons s rest ih =>
    rw [chainRun] at h
    cases hs : stratSucceeds env s with
    | some w =>
      rw [hs] at h
      cases h
      exact ⟨s, by simp, hs⟩
    | none =>
      rw [hs] at h
      obtain ⟨t, ht, h2⟩ := ih h
      exact ⟨t, by simp [ht], h2⟩

theorem scanHeaders_none (L : List String)
    (h : ∀ c ∈ L, ∃ e, extract_cudnn_version_from_header c = .error e) :
    scanHeaders L = none := by
  induction L with
  | nil => rfl
  | cons c rest ih =>
    obtain ⟨e, he⟩ := h c (by simp)
    rw [scanHeaders, he]
    exact ih fun d hd => h d (by simp [hd])

theorem scanHeaders_some (L : List String) (v : String)
    (h : scanHeaders L = some v) :
    ∃ c ∈ L, extract_cudnn_version_from_header c = .ok v := by
  induction L with
  | nil => cases h
  | cons c rest ih =>
    rw [scanHeaders] at h
    cases hc : extract_cudnn_version_from_header c with
    | ok w =>
      rw [hc] at h
      cases h
      exact ⟨c, by simp, hc⟩
    | error e =>
      rw [hc] at h
      obtain ⟨d, hd, h2⟩ := ih h
      exact ⟨d, by simp [hd], h2⟩

/-! ## Helper lemmas: the string primitives -/

theorem listContains_iff (hay pat : List Char) :
    listContains hay pat = true ↔ pat <:+: hay := by
  induction hay with
  | nil =>
    rw [listContains]
    simp [List.isPrefixOf_iff_prefix, List.prefix_nil, List.infix_nil]
  | cons a t ih =>
    rw [listContains]
    simp [List.isPrefixOf_iff_prefix, ih, List.infix_cons_iff]

theorem dropWhile_eq_self_of_head (p : Char → Bool) (l : List Char)
    (h : ∀ a, l.head? = some a → p a = false) : l.dropWhile p = l := by
  cases l with
  | nil => rfl
  | cons a t => rw [List.dropWhile_cons, h a rfl]; simp

theorem head?_dropWhile_false (p : Char → Bool) (l : List Char) (a : Char)
    (h : (l.dropWhile p).head? = some a) : p a = false := by
  induction l with
  | nil => cases h
  | cons c t ih =>
    rw [List.dropWhile_cons] at h
    cases hc : p c with
    | true => rw [hc] at h; simp at h; exact ih h
    | false =>
      rw [hc] at h
      simp at h
      exact h ▸ hc

theorem listTrim_getLast (l : List Char) (a : Char)
    (h : (listTrim l).getLast? = some a) : a.isWhitespace = false := by
  unfold listTrim at h
  rw [List.getLast?_eq_head?_reverse, List.reverse_reverse] at h
  exact head?_dropWhile_false _ _ _ h

theorem listTrim_head (l : List Char) (a : Char)
    (h : (listTrim l).head? = some a) : a.isWhitespace = false := by
  unfold listTrim at h
  rw [List.head?_reverse] at h
  obtain ⟨w, hw⟩ :=
    List.dropWhile_suffix (l := (l.dropWhile Char.isWhitespace).reverse)
      Char.isWhitespace
  have hr : (l.dropWhile Char.isWhitespace).reverse.dropWhile
      Char.isWhitespace ≠ [] := by
    intro hnil; rw [hnil] at h; cases h
  have hlast : (l.dropWhile Char.isWhitespace).reverse.getLast? = some a := by
    rw [← hw, List.getLast?_append_of_ne_nil _ hr]
    exact h
  rw [List.getLast?_eq_head?_reverse, List.reverse_reverse] at hlast
  exact head?_dropWhile_false _ _ _ hlast

theorem listTrim_eq_self (l : List Char)
    (h1 : ∀ a, l.head? = some a → a.isWhitespace = false)
    (h2 : ∀ a, l.getLast? = some a → a.isWhitespace = false) :
    listTrim l = l := by
  unfold listTrim
  rw [dropWhile_eq_self_of_head _ _ h1]
  rw [dropWhile_eq_self_of_head _ _
    (fun a ha => h2 a (by rwa [List.head?_reverse] at ha))]
  exact List.reverse_reverse l

theorem listTrim_idem (l : List Char) : listTrim (listTrim l) = listTrim l :=
  listTrim_eq_self _ (listTrim_head l) (listTrim_getLast l)

theorem listTrim_of_all_nows (l : List Char)
    (h : ∀ c ∈ l, c.isWhitespace = false) : listTrim l = l :=
  listTrim_eq_self l
    (fun a ha => h a (List.mem_of_mem_head? ha))
    (fun a ha => h a (List.mem_of_mem_getLast? ha))

theorem rustTrim_idem (s : String) : rustTrim (rustTrim s) = rustTrim s :=
  congrArg String.mk (listTrim_idem s.data)

theorem rustTrim_of_all_nows (s : String)
    (h : ∀ c ∈ s.data, c.isWhitespace = false) : rustTrim s = s := by
  have := listTrim_of_all_nows s.data h
  unfold rustTrim
  rw [this]

theorem infix_dropWhile (p : Char → Bool) (pat l : List Char) (hne : pat ≠ [])
    (hh : ∀ a, pat.head? = some a → p a = false)
    (h : pat <:+: l) : pat <:+: l.dropWhile p := by
  induction l with
  | nil => exact absurd (List.infix_nil.1 h) hne
  | cons c t ih =>
    rw [List.dropWhile_cons]
    cases hc : p c with
    | false => simpa using h
    | true =>
      simp only [if_pos rfl]
      rcases List.infix_cons_iff.1 h with hpre | hinf
      · cases pat with
        | nil => exact absurd rfl hne
        | cons b bt =>
          obtain ⟨w, hw⟩ := hpre
          have hb : b = c := by
            have := congrArg List.head? hw
            simpa using this
          have := hh b rfl
          rw [hb, hc] at this
          cases this
      · exact ih hinf

theorem infix_listTrim (pat l : List Char) (hne : pat ≠ [])
    (hh : ∀ a, pat.head? = some a → a.isWhitespace = false)
    (hl : ∀ a, pat.getLast? = some a → a.isWhitespace = false)
    (h : pat <:+: l) : pat <:+: listTrim l := by
  unfold listTrim
  have h1 : pat <:+: l.dropWhile Char.isWhitespace :=
    infix_dropWhile _ _ _ hne hh h
  have h2 : pat.reverse <:+: (l.dropWhile Char.isWhitespace).reverse :=
    List.reverse_infix.2 h1
  have h3 : pat.reverse <:+:
      (l.dropWhile Char.isWhitespace).reverse.dropWhile Char.isWhitespace :=
    infix_dropWhile _ _ _ (by simpa using hne)
      (fun a ha => hl a (by rwa [List.head?_reverse] at ha)) h2
  have h4 := List.reverse_infix.2 h3
  rwa [List.reverse_reverse] at h4

theorem containsSub_rustTrim (s pat : String) (hne : pat.data ≠ [])
    (hh : ∀ a, pat.data.head? = some a → a.isWhitespace = false)
    (hl : ∀ a, pat.data.getLast? = some a → a.isWhitespace = false)
    (h : containsSub s pat = true) : containsSub (rustTrim s) pat = true := by
  rw [containsSub, listContains_iff] at h ⊢
  exact infix_listTrim _ _ hne hh hl h

/-! ## Helper lemmas: whitespace splitting -/

theorem listSplitWsF_mem (fuel : Nat) : ∀ (l g : List Char),
    g ∈ listSplitWsF fuel l →
    g ≠ [] ∧ ∀ c ∈ g, c.isWhitespace = false := by
  induction fuel with
  | zero => intro l g h; simp [listSplitWsF] at h
  | succ n ih =>
    intro l g h
    cases l with
    | nil => simp [listSplitWsF] at h
    | cons c cs =>
      rw [listSplitWsF] at h
      cases hc : c.isWhitespace with
      | true => rw [hc] at h; simp only [if_pos rfl] at h; exact ih _ _ h
      | false =>
        rw [hc] at h
        simp only [Bool.false_eq_true, if_false] at h
        rcases List.mem_cons.1 h with rfl | hmem
        · refine ⟨by simp, fun d hd => ?_⟩
          rcases List.mem_cons.1 hd with rfl | hd
          · exact hc
          · simpa using List.mem_takeWhile_imp hd
        · exact ih _ _ hmem

theorem listSplitWsF_ne_nil (fuel : Nat) : ∀ l : List Char,
    l.length ≤ fuel → (∃ c ∈ l, c.isWhitespace = false) →
    listSplitWsF fuel l ≠ [] := by
  induction fuel with
  | zero =>
    intro l hl hex
    obtain ⟨c, hc, _⟩ := hex
    cases l with
    | nil => cases hc
    | cons a t => simp at hl
  | succ n ih =>
    intro l hl hex
    cases l with
    | nil => obtain ⟨c, hc, _⟩ := hex; cases hc
    | cons a t =>
      rw [listSplitWsF]
      cases ha : a.isWhitespace with
      | true =>
        simp only [if_pos rfl]
        apply ih t (by simpa using hl)
        obtain ⟨c, hc, hcw⟩ := hex
        rcases List.mem_cons.1 hc with rfl | hmem
        · rw [ha] at hcw; cases hcw
        · exact ⟨c, hmem, hcw⟩
      | false => simp

theorem listSplitWs_mem (l g : List Char) (h : g ∈ listSplitWs l) :
    g ≠ [] ∧ ∀ c ∈ g, c.isWhitespace = false :=
  listSplitWsF_mem l.length l g h

theorem listSplitWs_ne_nil (l : List Char)
    (hex : ∃ c ∈ l, c.isWhitespace = false) : listSplitWs l ≠ [] :=
  listSplitWsF_ne_nil l.length l le_rfl hex

/-! ## Helper lemmas: character classes and the regex model -/

theorem not_ws_of_digit (c : Char) (h : c.isDigit = true) :
    c.isWhitespace = false := by
  cases hw : c.isWhitespace with
  | false => rfl
  | true =>
    exfalso
    simp [Char.isWhitespace] at hw
    rcases hw with ((h1 | h1) | h1) | h1 <;> subst h1 <;>
      simp [Char.isDigit] at h

theorem not_ws_of_digit_or_dot (c : Char)
    (h : c.isDigit = true ∨ c = '.') : c.isWhitespace = false := by
  rcases h with h | rfl
  · exact not_ws_of_digit c h
  · rfl

theorem matchDigits_some (l : List Char) (d r : List Char)
    (h : matchDigits l = some (d, r)) : d = l.takeWhile Char.isDigit := by
  unfold matchDigits at h
  by_cases he : (l.takeWhile Char.isDigit).isEmpty = true
  · rw [if_pos he] at h; cases h
  · rw [if_neg he] at h; cases h; rfl

theorem matchDotted_chars (n : Nat) : ∀ (l r : List Char),
    matchDotted n l = some r → ∀ c ∈ r, c.isDigit = true ∨ c = '.' := by
  induction n with
  | zero => intro l r h; simp [matchDotted] at h
  | succ m ih =>
    intro l r h
    cases m with
    | zero =>
      simp only [matchDotted] at h
      cases hd : matchDigits l with
      | none => rw [hd] at h; cases h
      | some p =>
        obtain ⟨d, rest⟩ := p
        rw [hd] at h
        cases h
        intro c hc
        exact Or.inl (List.mem_takeWhile_imp (matchDigits_some l d rest hd ▸ hc))
    | succ k =>
      simp only [matchDotted] at h
      split at h
      · cases h
      · rename_i d rest heq
        split at h
        · rename_i rest2
          split at h
          · cases h
          · rename_i tail hm
            cases h
            intro c hc
            rcases List.mem_append.1 hc with hcd | hct
            · exact Or.inl
                (List.mem_takeWhile_imp (matchDigits_some l d _ heq ▸ hcd))
            · rcases List.mem_cons.1 hct with rfl | hct2
              · exact Or.inr rfl
              · exact ih rest2 tail hm c hct2
        · cases h

theorem findCapture_chars (marker : List Char) (n : Nat) :
    ∀ (l r : List Char), findCapture marker n l = some r →
    ∀ c ∈ r, c.isDigit = true ∨ c = '.' := by
  intro l
  induction l with
  | nil =>
    intro r h
    rw [findCapture] at h
    by_cases hp : marker.isPrefixOf ([] : List Char) = true
    · rw [if_pos hp] at h; exact matchDotted_chars n [] r h
    · rw [if_neg hp] at h; cases h
  | cons c t ih =>
    intro r h
    rw [findCapture] at h
    cases hhead : (if marker.isPrefixOf (c :: t) then
        matchDotted n ((c :: t).drop marker.length) else none) with
    | some w =>
      rw [hhead] at h
      cases h
      by_cases hp : marker.isPrefixOf (c :: t) = true
      · rw [if_pos hp] at hhead
        exact matchDotted_chars n _ _ hhead
      · rw [if_neg hp] at hhead; cases hhead
    | none =>
      rw [hhead] at h
      exact ih r h

theorem captureGroup_trimmed (marker : String) (n : Nat) (s v : String)
    (h : captureGroup marker n s = some v) : rustTrim v = v := by
  unfold captureGroup at h
  cases hf : findCapture marker.data n s.data with
  | none => rw [hf] at h; cases h
  | some r =>
    rw [hf] at h
    cases h
    exact rustTrim_of_all_nows _ fun c hc =>
      not_ws_of_digit_or_dot c (findCapture_chars marker.data n s.data r hf c hc)

/-! ## Helper lemmas: tokens produced by the parsers are trimmed -/

theorem rustSplitWs_getLast_nows (line tok : String)
    (h : (rustSplitWs line).getLast? = some tok) :
    rustIsEmpty tok = false ∧ ∀ c ∈ tok.data, c.isWhitespace = false := by
  unfold rustSplitWs at h
  rw [List.getLast?_map] at h
  cases hg : (listSplitWs line.data).getLast? with
  | none => rw [hg] at h; cases h
  | some g =>
    rw [hg] at h
    cases h
    obtain ⟨hne, hall⟩ := listSplitWs_mem _ _ (List.mem_of_mem_getLast? hg)
    refine ⟨?_, hall⟩
    cases hemp : g.isEmpty with
    | false => exact hemp
    | true => exact absurd (List.isEmpty_iff.1 hemp) hne

theorem rustSplitWs_mem_nows (line tok : String) (h : tok ∈ rustSplitWs line) :
    ∀ c ∈ tok.data, c.isWhitespace = false := by
  unfold rustSplitWs at h
  obtain ⟨g, hg, rfl⟩ := List.mem_map.1 h
  exact (listSplitWs_mem _ _ hg).2

theorem pyProbeParse_trimmed (out v : String)
    (h : pyProbeParse out = some v) : rustTrim v = v := by
  simp only [pyProbeParse] at h
  split at h
  · cases h; exact rustTrim_idem out
  · cases h

theorem pyNoneParse_trimmed (out v : String)
    (h : pyNoneParse out = some v) : rustTrim v = v := by
  simp only [pyNoneParse] at h
  split at h
  · cases h; exact rustTrim_idem out
  · cases h

theorem pipShowParse_trimmed (out v : String)
    (h : pipShowParse out = some v) : rustTrim v = v := by
  simp only [pipShowParse] at h
  split at h
  · split at h
    · split at h
      · cases h; exact rustTrim_idem _
      · cases h
    · cases h
  · cases h

theorem condaListParse_trimmed (pkg out v : String)
    (h : condaListParse pkg out = some v) : rustTrim v = v := by
  simp only [condaListParse] at h
  split at h
  · split at h
    · rename_i line hline
      split at h
      · rename_i hlen
        cases h
        have h1 : (1 : Nat) < (rustSplitWs line).length := hlen
        rw [List.getD_eq_getElem _ _ h1]
        exact rustTrim_of_all_nows _
          (rustSplitWs_mem_nows line _ (List.getElem_mem h1))
      · cases h
    · cases h
  · cases h

theorem extract_cudnn_trimmed (content v : String)
    (h : extract_cudnn_version_from_header content = .ok v) :
    rustTrim v = v := by
  simp only [extract_cudnn_version_from_header] at h
  split at h
  · cases h
    apply rustTrim_of_all_nows
    intro c hc
    simp only [String.data_append] at hc
    have hpart : ∀ (dir : String),
        ∀ c ∈ ((((rustLines content).find?
            (fun line => containsSub line dir)).bind
            (fun line => (rustSplitWs line).getLast?)).getD "").data,
        c.isWhitespace = false := by
      intro dir c hc
      cases hf : (rustLines content).find? (fun line => containsSub line dir) with
      | none =>
        rw [hf] at hc
        simp [Option.none_bind] at hc
      | some line =>
        rw [hf] at hc
        rw [Option.some_bind] at hc
        cases hg : (rustSplitWs line).getLast? with
        | none =>
          rw [hg] at hc
          simp at hc
        | some tok =>
          rw [hg] at hc
          exact (rustSplitWs_getLast_nows line tok hg).2 c hc
    simp only [List.mem_append, List.mem_singleton] at hc
    rcases hc with ((((hc | rfl) | hc) | rfl) | hc)
    · exact hpart _ c hc
    · rfl
    · exact hpart _ c hc
    · rfl
    · exact hpart _ c hc
  · cases h

theorem nvccParse_trimmed (out v : String)
    (h : nvccParse out = some v) : rustTrim v = v := by
  simp only [nvccParse] at h
  split at h
  · rename_i w hr
    cases h
    exact captureGroup_trimmed _ _ _ _ hr
  · exact captureGroup_trimmed _ _ _ _ h

theorem versionTxtParse_trimmed (out v : String)
    (h : versionTxtParse out = some v) : rustTrim v = v :=
  captureGroup_trimmed _ _ _ _ h

theorem releaseOnlyParse_trimmed (out v : String)
    (h : releaseOnlyParse out = some v) : rustTrim v = v :=
  captureGroup_trimmed _ _ _ _ h

theorem tfStrategies_parser_trimmed :
    ∀ s ∈ tfStrategies, ∀ out v, s.2 out = some v → rustTrim v = v := by
  intro s hs out v h
  fin_cases hs
  · exact pyProbeParse_trimmed out v h
  · exact pyProbeParse_trimmed out v h
  · exact pipShowParse_trimmed out v h
  · exact pipShowParse_trimmed out v h
  · exact condaListParse_trimmed _ out v h

theorem ptStrategies_parser_trimmed :
    ∀ s ∈ ptStrategies, ∀ out v, s.2 out = some v → rustTrim v = v := by
  intro s hs out v h
  fin_cases hs
  · exact pyProbeParse_trimmed out v h
  · exact pyProbeParse_trimmed out v h
  · exact pipShowParse_trimmed out v h
  · exact pipShowParse_trimmed out v h
  · exact condaListParse_trimmed _ out v h
  · exact condaListParse_trimmed _ out v h

theorem cudnnPy_parser_trimmed :
    ∀ s ∈ cudnnPyStrategies, ∀ out v, s.2 out = some v → rustTrim v = v := by
  intro s hs out v h
  fin_cases hs
  · exact pyNoneParse_trimmed out v h
  · exact pyNoneParse_trimmed out v h
  · exact pyNoneParse_trimmed out v h
  · exact pyNoneParse_trimmed out v h

theorem toolkit_parser_trimmed (probe : Probe) :
    ∀ s ∈ toolkitStrategies probe, ∀ out v, s.2 out = some v →
    rustTrim v = v := by
  intro s hs out v h
  unfold toolkitStrategies at hs
  rcases List.mem_append.1 hs with hs1 | hs2
  · rcases List.mem_append.1 hs1 with hs3 | hs4
    · fin_cases hs3
      · exact nvccParse_trimmed out v h
      · exact nvccParse_trimmed out v h
      · exact nvccParse_trimmed out v h
      · exact versionTxtParse_trimmed out v h
      · exact pyNoneParse_trimmed out v h
      · exact pyNoneParse_trimmed out v h
      · exact pyNoneParse_trimmed out v h
      · exact pyNoneParse_trimmed out v h
    · obtain ⟨p, _, rfl⟩ := List.mem_map.1 hs4
      exact releaseOnlyParse_trimmed out v h
  · obtain ⟨p, _, rfl⟩ := List.mem_map.1 hs2
    exact releaseOnlyParse_trimmed out v h

theorem chainRun_ok_trimmed (env : Env) (L : List ProbeStrategy)
    (msg v : String)
    (hp : ∀ s ∈ L, ∀ out w, s.2 out = some w → rustTrim w = w)
    (h : chainRun env L msg = .ok v) : rustTrim v = v := by
  obtain ⟨s, hs, hsv⟩ := chainRun_ok_mem env L msg v h
  unfold stratSucceeds at hsv
  cases he : env s.1 with
  | ok out => rw [he] at hsv; exact hp s hs out v hsv
  | error e => rw [he] at hsv; cases hsv

theorem get_tensorflow_version_trimmed (env : Env) (v : String)
    (h : get_tensorflow_version env = .ok v) : rustTrim v = v :=
  chainRun_ok_trimmed env _ _ v tfStrategies_parser_trimmed h

theorem get_pytorch_version_trimmed (env : Env) (v : String)
    (h : get_pytorch_version env = .ok v) : rustTrim v = v :=
  chainRun_ok_trimmed env _ _ v ptStrategies_parser_trimmed h

theorem get_cuda_toolkit_version_trimmed (probe : Probe) (v : String)
    (h : get_cuda_toolkit_version probe = .ok v) : rustTrim v = v :=
  chainRun_ok_trimmed probe.run _ _ v (toolkit_parser_trimmed probe) h

theorem get_cudnn_version_trimmed (probe : Probe) (v : String)
    (h : get_cudnn_version probe = .ok v) : rustTrim v = v := by
  simp only [get_cudnn_version] at h
  split at h
  · rename_i hscan
    cases h
    obtain ⟨c, _, hc⟩ := scanHeaders_some _ _ hscan
    exact extract_cudnn_trimmed c v hc
  · split at h
    · rename_i hscan
      cases h
      obtain ⟨c, _, hc⟩ := scanHeaders_some _ _ hscan
      exact extract_cudnn_trimmed c v hc
    · exact chainRun_ok_trimmed probe.run _ _ v cudnnPy_parser_trimmed h

theorem get_python_version_trimmed (env : Env) (v : String)
    (h : get_python_version env = some v) : rustTrim v = v := by
  unfold get_python_version at h
  split at h
  · cases h; exact rustTrim_idem _
  · split at h
    · cases h; exact rustTrim_idem _
    · cases h

/-! ## Helper lemmas: `Except` plumbing and the codec round trip -/

theorem except_bind_ok {α β : Type} (x : Except String α) (a : α)
    (f : α → Except String β) (h : x = .ok a) : (x >>= f) = f a := by
  rw [h]; rfl

theorem except_isOk_bind {α β : Type} (x : Except String α)
    (f : α → Except String β) :
    ((x >>= f).isOk = true) ↔ ∃ a, x = .ok a ∧ (f a).isOk = true := by
  cases x with
  | ok a =>
    constructor
    · intro h; exact ⟨a, rfl, h⟩
    · rintro ⟨b, hb, h⟩; cases hb; exact h
  | error e =>
    constructor
    · intro h; cases h
    · rintro ⟨b, hb, h⟩; cases hb

theorem decodeGpuInfo_encode (g : GpuInfo) :
    decodeGpuInfo (encodeGpuInfo g) = .ok g := by
  obtain ⟨n, m, cc⟩ := g
  cases m <;> cases cc <;> rfl

theorem mapM_decodeGpu (gs : List GpuInfo) :
    (gs.map encodeGpuInfo).mapM decodeGpuInfo = .ok gs := by
  induction gs with
  | nil => rfl
  | cons g gs ih =>
    rw [List.map_cons, List.mapM_cons, decodeGpuInfo_encode, ih]
    rfl

theorem decodeSystemInfo_encode (si : SystemInfo) :
    decodeSystemInfo (encodeSystemInfo si) = .ok si := by
  obtain ⟨o, a, c, t, p⟩ := si
  cases p <;> rfl

theorem decodeCudaInfo_encode (ci : CudaInfo) :
    decodeCudaInfo (encodeCudaInfo ci) = .ok ci := by
  obtain ⟨d, cv, cd, gpus⟩ := ci
  cases d <;> cases cv <;> cases cd <;>
    exact Eq.trans (except_bind_ok _ gpus _ (mapM_decodeGpu gpus)) rfl

theorem decodeFrameworkInfo_encode (fw : FrameworkInfo) :
    decodeFrameworkInfo (encodeFrameworkInfo fw) = .ok fw := by
  obtain ⟨t, p⟩ := fw
  cases t <;> cases p <;> rfl

theorem decodeConfig_encode (c : EnvironmentConfig) :
    decodeConfig (encodeConfig c) = .ok c := by
  obtain ⟨si, ci, fw, ts, host⟩ := c
  refine Eq.trans (except_bind_ok _ si _ (decodeSystemInfo_encode si)) ?_
  refine Eq.trans (except_bind_ok _ ci _ (decodeCudaInfo_encode ci)) ?_
  refine Eq.trans (except_bind_ok _ fw _ (decodeFrameworkInfo_encode fw)) ?_
  rfl

/-! ## Claim C1 -/

/-- **C1.**  For each framework detection chain (TensorFlow and PyTorch),
strategies are tried strictly in their listed order: whenever every strategy
of the prefix `pre` either fails to probe or probes with unparseable output,
and the next strategy `s` probes successfully with output parsing to `v`,
the chain returns `Detected(v)`; and no later strategy is attempted — the
result holds for every runner `env'` that agrees with `env` on the commands
of `pre` and `s` but is arbitrary on all the remaining strategies (`post`
itself is also arbitrary). -/
theorem C1_strategy_order_first_success (env env' : Env)
    (pre post : List ProbeStrategy) (s : ProbeStrategy) (v : String)
    (hpre : ∀ t ∈ pre, stratSucceeds env t = none)
    (hs : stratSucceeds env s = some v)
    (hagree : ∀ t ∈ pre ++ [s], env' t.1 = env t.1) :
    (tfStrategies = pre ++ s :: post →
      get_tensorflow_version env' = .ok v) ∧
    (ptStrategies = pre ++ s :: post →
      get_pytorch_version env' = .ok v) := by
  have hpre' : ∀ t ∈ pre, stratSucceeds env' t = none := fun t ht =>
    (stratSucceeds_congr env env' t
      (hagree t (List.mem_append.2 (Or.inl ht)))).trans (hpre t ht)
  have hs' : stratSucceeds env' s = some v :=
    (stratSucceeds_congr env env' s
      (hagree s (List.mem_append.2 (Or.inr (List.mem_singleton.2 rfl))))).trans hs
  refine ⟨fun heq => ?_, fun heq => ?_⟩
  · unfold get_tensorflow_version
    rw [heq, chainRun_append env' pre _ _ hpre']
    exact chainRun_cons_ok env' s post _ v hs'
  · unfold get_pytorch_version
    rw [heq, chainRun_append env' pre _ _ hpre']
    exact chainRun_cons_ok env' s post _ v hs'

/-- A runner under which the first TensorFlow strategy fails and the second
yields `1.2.3`; every other probe fails. -/
def c1FailEnv : Env := fun c =>
  if c = tfPyCmd then .error "sh: python: command not found"
  else if c = tfPy3Cmd then .ok "1.2.3\n"
  else .error "probe failed"

/-- Like `c1FailEnv` on the first two TensorFlow strategies, but every later
probe would answer with parseable `pip show` metadata — if a later strategy
were attempted, it would change the result. -/
def c1LaterEnv : Env := fun c =>
  if c = tfPyCmd then .error "sh: python: command not found"
  else if c = tfPy3Cmd then .ok "1.2.3\n"
  else .ok "Name: tensorflow\nVersion: 9.9.9\n"

/-- Witness for C1: strategy A fails, strategy B succeeds with `1.2.3`, and
the chain answers `1.2.3` even though strategies C, D, E would have parsed
to `9.9.9` had they been attempted. -/
theorem C1_witness : get_tensorflow_version c1LaterEnv = .ok "1.2.3" :=
  (C1_strategy_order_first_success c1FailEnv c1LaterEnv
      [(tfPyCmd, pyProbeParse)]
      [("pip show tensorflow", pipShowParse),
       ("pip3 show tensorflow", pipShowParse),
       ("conda list tensorflow", condaListParse "tensorflow")]
      (tfPy3Cmd, pyProbeParse) "1.2.3"
      (by intro t ht; fin_cases ht; rfl)
      (by rfl)
      (by intro t ht; fin_cases ht <;> rfl)).1 rfl

/-! ## Claim C3 -/

/-- **C3.**  The reconciler classifies each pair into exactly one of the five
outcomes by exact string equality only: both present compare by `a = b`
(`Match`/`Mismatch` — no numeric or semantic comparison enters the
definition), one-sided presence gives `LocalOnly`/`RemoteOnly`, double
absence gives `BothAbsent`; and swapping the arguments turns `LocalOnly`
into `RemoteOnly` and vice versa. -/
theorem C3_reconciler_classification (l r : Option String) :
    (∀ a b : String, compare_versions (some a) (some b) =
      if a = b then VersionComparison.Match else VersionComparison.Mismatch) ∧
    (∀ a : String, compare_versions (some a) none = .LocalOnly) ∧
    (∀ b : String, compare_versions none (some b) = .RemoteOnly) ∧
    compare_versions none none = .BothAbsent ∧
    (compare_versions l r = .LocalOnly ↔ compare_versions r l = .RemoteOnly) := by
  refine ⟨fun a b => rfl, fun a => rfl, fun b => rfl, rfl, ?_⟩
  cases l with
  | none =>
    cases r with
    | none => simp [compare_versions]
    | some b => simp [compare_versions]
  | some a =>
    cases r with
    | none => simp [compare_versions]
    | some b =>
      simp only [compare_versions]
      by_cases hab : a = b
      · subst hab
        simp
      · rw [if_neg hab, if_neg (fun h => hab h.symm)]
        simp

/-! ## Claim C4 -/

/-- A snapshot in which every optional field is absent and the GPU list is
empty. -/
def allAbsentConfig : EnvironmentConfig :=
  { system_info :=
      { os := "Ubuntu 22.04", arch := "x86_64", cpu := "cpu0",
        total_memory_gb := 16, python_version := none },
    cuda_info :=
      { driver_version := none, cuda_version := none,
        cudnn_version := none, gpus := [] },
    frameworks := { tensorflow := none, pytorch := none },
    timestamp := "2024-01-01T00:00:00Z",
    hostname := "host0" }

/-- **C4.**  Decoding the encoding of any well-formed snapshot yields the
snapshot back, field for field — in particular for the snapshot in which
every optional field is absent; absent (`none`, encoded `null`) and the
empty string (`some ""`, encoded `""`) are distinct values of the type and
the round trip preserves each as itself. -/
theorem C4_codec_roundtrip (c : EnvironmentConfig) :
    decodeConfig (encodeConfig c) = .ok c ∧
    decodeConfig (encodeConfig allAbsentConfig) = .ok allAbsentConfig :=
  ⟨decodeConfig_encode c, decodeConfig_encode allAbsentConfig⟩

/-! ## Claim C10 -/

/-- **C10.**  Every GPU record the collector assembles — and hence every GPU
record in a built snapshot — has `compute_capability = none`: the
`nvidia-smi` query parses only the name and total-memory fields and the
source populates the field with the literal `None`. -/
theorem C10_gpu_compute_capability_none :
    (∀ env : Env, ∀ g ∈ get_gpu_list env, g.compute_capability = none) ∧
    (∀ (probe : Probe) (os arch cpu : String) (mem : Rat) (ts host : String),
      ∀ g ∈ (collect_environment_config probe os arch cpu mem
        ts host).cuda_info.gpus, g.compute_capability = none) := by
  have h1 : ∀ env : Env, ∀ g ∈ get_gpu_list env, g.compute_capability = none := by
    intro env g hg
    unfold get_gpu_list at hg
    cases he : env "nvidia-smi --query-gpu=name,memory.total --format=csv,noheader,nounits" with
    | error e => rw [he] at hg; cases hg
    | ok output =>
      rw [he] at hg
      have hfold : ∀ (lines : List String) (acc : List GpuInfo),
          (∀ g ∈ acc, g.compute_capability = none) →
          ∀ g ∈ lines.foldl (fun gpus line =>
            if ((rustSplit ',' line).map rustTrim).length ≥ 2 then
              gpus ++ [{ name := ((rustSplit ',' line).map rustTrim).getD 0 "",
                         memory_gb := (parseDecimal
                           (((rustSplit ',' line).map rustTrim).getD 1 "")).map
                           (fun mb => mb / 1024),
                         compute_capability := none }]
            else gpus) acc, g.compute_capability = none := by
        intro lines
        induction lines with
        | nil => intro acc hacc g hg; exact hacc g hg
        | cons line rest ih =>
          intro acc hacc g hg
          rw [List.foldl_cons] at hg
          refine ih _ ?_ g hg
          intro g' hg'
          by_cases hlen : ((rustSplit ',' line).map rustTrim).length ≥ 2
          · rw [if_pos hlen] at hg'
            rcases List.mem_append.1 hg' with h | h
            · exact hacc g' h
            · rw [List.mem_singleton.1 h]
          · rw [if_neg hlen] at hg'
            exact hacc g' hg'
      exact hfold (rustLines output) [] (fun g hg => absurd hg (List.not_mem_nil g)) g hg
  exact ⟨h1, fun probe os arch cpu mem ts host g hg => h1 probe.run g hg⟩

/-- A runner whose GPU-list query reports one device line. -/
def c10Env : Env := fun c =>
  if c = "nvidia-smi --query-gpu=name,memory.total --format=csv,noheader,nounits" then
    .ok "NVIDIA A100, 40960\n"
  else .error "probe failed"

/-- Witness for C10: the single device record parsed from the probe carries
no compute capability. -/
theorem C10_witness :
    (⟨"NVIDIA A100", (parseDecimal "40960").map (fun mb => mb / 1024),
      none⟩ : GpuInfo).compute_capability = none :=
  C10_gpu_compute_capability_none.1 c10Env
    ⟨"NVIDIA A100", (parseDecimal "40960").map (fun mb => mb / 1024), none⟩
    (List.mem_singleton.2 rfl)

/-! ## Claim C5 -/

theorem isOk_if (b : Bool) (x e : String) :
    (if b = true then (Except.ok x : Except String String)
     else .error e).isOk = b := by
  cases b <;> rfl

/-- The `unwrap_or("")` value of one directive lookup is nonempty exactly
when some line contains the directive: a line containing the directive text
has a non-whitespace character, so its last whitespace-separated field
exists and is nonempty. -/
theorem directive_value_nonempty (content dir : String) (c0 : Char)
    (hc0 : c0 ∈ dir.data) (hc0w : c0.isWhitespace = false) :
    rustIsEmpty ((((rustLines content).find?
        (fun line => containsSub line dir)).bind
        (fun line => (rustSplitWs line).getLast?)).getD "")
      = !((rustLines content).any (fun l => containsSub l dir)) := by
  cases hf : (rustLines content).find? (fun line => containsSub line dir) with
  | none =>
    have hany : (rustLines content).any (fun l => containsSub l dir) = false := by
      cases hA : (rustLines content).any (fun l => containsSub l dir) with
      | false => rfl
      | true =>
        obtain ⟨x, hx, hpx⟩ := List.any_eq_true.1 hA
        exact absurd hpx (List.find?_eq_none.1 hf x hx)
    rw [hany]
    rfl
  | some line =>
    have hp := List.find?_some hf
    have hany : (rustLines content).any (fun l => containsSub l dir) = true :=
      List.any_eq_true.2 ⟨line, List.mem_of_find?_eq_some hf, hp⟩
    have hinf := (listContains_iff _ _).1 hp
    have hmem : c0 ∈ line.data := hinf.subset hc0
    have hne := listSplitWs_ne_nil line.data ⟨c0, hmem, hc0w⟩
    cases hg : (listSplitWs line.data).getLast? with
    | none => exact absurd (List.getLast?_eq_none_iff.1 hg) hne
    | some g =>
      have hgl : (rustSplitWs line).getLast? = some ⟨g⟩ := by
        unfold rustSplitWs
        rw [List.getLast?_map, hg]
        rfl
      rw [Option.some_bind, hgl, hany]
      exact (rustSplitWs_getLast_nows line ⟨g⟩ hgl).1

/-- The header parse succeeds exactly when all three directives occur. -/
theorem extract_isOk_eq_any (content : String) :
    (extract_cudnn_version_from_header content).isOk =
      ((rustLines content).any (fun l => containsSub l "#define CUDNN_MAJOR") &&
       (rustLines content).any (fun l => containsSub l "#define CUDNN_MINOR") &&
       (rustLines content).any
         (fun l => containsSub l "#define CUDNN_PATCHLEVEL")) := by
  simp only [extract_cudnn_version_from_header]
  rw [isOk_if]
  rw [directive_value_nonempty content "#define CUDNN_MAJOR" '#'
        (by decide) (by decide),
      directive_value_nonempty content "#define CUDNN_MINOR" '#'
        (by decide) (by decide),
      directive_value_nonempty content "#define CUDNN_PATCHLEVEL" '#'
        (by decide) (by decide)]
  simp

theorem perm_any {l1 l2 : List String} (h : l1.Perm l2) (p : String → Bool) :
    l1.any p = l2.any p := by
  rw [Bool.eq_iff_iff]
  simp only [List.any_eq_true]
  constructor
  · rintro ⟨x, hx, hp⟩; exact ⟨x, h.mem_iff.1 hx, hp⟩
  · rintro ⟨x, hx, hp⟩; exact ⟨x, h.mem_iff.2 hx, hp⟩

/-- **C5.**  The preprocessor-header parser produces a token iff all three
directives `CUDNN_MAJOR`, `CUDNN_MINOR`, `CUDNN_PATCHLEVEL` occur in the
header text; each is located independently by name, so any permutation of
the lines leaves success unchanged (in particular a text with only major
and minor — no line containing the patch directive — fails); and every
produced token is dotted, of the shape `a.b.c`. -/
theorem C5_cudnn_header_parse (content : String) :
    ((extract_cudnn_version_from_header content).isOk =
      ((rustLines content).any (fun l => containsSub l "#define CUDNN_MAJOR") &&
       (rustLines content).any (fun l => containsSub l "#define CUDNN_MINOR") &&
       (rustLines content).any
         (fun l => containsSub l "#define CUDNN_PATCHLEVEL"))) ∧
    (∀ content' : String, (rustLines content).Perm (rustLines content') →
      (extract_cudnn_version_from_header content).isOk =
      (extract_cudnn_version_from_header content').isOk) ∧
    (∀ v : String, extract_cudnn_version_from_header content = .ok v →
      ∃ a b c : String, v = a ++ "." ++ b ++ "." ++ c) := by
  refine ⟨extract_isOk_eq_any content, fun content' hperm => ?_, fun v hv => ?_⟩
  · rw [extract_isOk_eq_any, extract_isOk_eq_any,
        perm_any hperm, perm_any hperm, perm_any hperm]
  · simp only [extract_cudnn_version_from_header] at hv
    split at hv
    · cases hv
      exact ⟨_, _, _, rfl⟩
    · cases hv

/-! ## Claim C6 -/

/-- **C6 (amended).**  Of the two package-manager parsers, the pip-show
parser rejects any successful probe output containing the pip
package-not-found sentinel, failing that strategy even when a version-shaped
`Version:` line is present elsewhere in the same output; the conda-list
parser applies no sentinel check (see the counterexample, where it returns a
version from output carrying an explicit not-found notice). -/
theorem C6_pip_sentinel_reject (env : Env) (package_name pip_cmd output : String)
    (hrun : env (pip_cmd ++ " show " ++ package_name) = .ok output)
    (hsent : containsSub output pipSentinel = true) :
    get_pip_package_version package_name pip_cmd env =
      .error ("Package " ++ package_name ++ " not found with " ++ pip_cmd) := by
  have htrim : containsSub (rustTrim output) pipSentinel = true := by
    apply containsSub_rustTrim output pipSentinel ?_ ?_ ?_ hsent
    · decide
    · intro a ha
      have h0 : pipSentinel.data.head? = some 'W' := rfl
      rw [h0] at ha
      injection ha with h
      subst h
      decide
    · intro a ha
      have h0 : pipSentinel.data.getLast? = some 'd' := rfl
      rw [h0] at ha
      injection ha with h
      subst h
      decide
  have hparse : pipShowParse output = none := by
    simp only [pipShowParse, htrim]
    simp
  simp only [get_pip_package_version, hrun, hparse]

/-- A runner whose `conda list tensorflow` output carries both a
version-shaped package line and an explicit not-found notice. -/
def c6CondaEnv : Env := fun c =>
  if c = "conda list tensorflow" then
    .ok "tensorflow 2.1.0 pypi\nPackagesNotFoundError: tensorflow not found\n"
  else .error "probe failed"

/-- Counterexample to C6 as stated: the conda-list parser does *not* reject
output containing an explicit package-not-found sentinel — on output that
contains the sentinel text "not found" (and a `PackagesNotFoundError`
notice) together with a version-shaped field, it succeeds with `2.1.0`
instead of returning a failure. -/
theorem C6_counterexample :
    containsSub
      "tensorflow 2.1.0 pypi\nPackagesNotFoundError: tensorflow not found\n"
      "not found" = true ∧
    get_conda_package_version "tensorflow" c6CondaEnv = .ok "2.1.0" := by
  exact ⟨rfl, rfl⟩

/-- A runner whose `pip show tensorflow` output carries the pip not-found
sentinel together with a `Version:` line. -/
def c6PipEnv : Env := fun c =>
  if c = "pip show tensorflow" then
    .ok "WARNING: Package(s) not found: tensorflow\nVersion: 9.9.9\n"
  else .error "probe failed"

/-- Witness for C6 (amended): the pip parser fails the strategy on
sentinel-bearing output despite the `Version: 9.9.9` line. -/
theorem C6_witness :
    get_pip_package_version "tensorflow" "pip" c6PipEnv =
      .error "Package tensorflow not found with pip" :=
  C6_pip_sentinel_reject c6PipEnv "tensorflow" "pip"
    "WARNING: Package(s) not found: tensorflow\nVersion: 9.9.9\n" rfl rfl

/-! ## Claim C8 -/

/-- **C8 (amended).**  The framework python-probe parsers trim the raw
output — leading and trailing whitespace, including blank lines at either
edge, is tolerated — and on acceptance they return the *whole* trimmed text
as the token (no sub-token extraction); but output containing "not found",
"No module", or "WARNING" anywhere, such as an embedded warning line, is
rejected and the strategy falls through to the next one. -/
theorem C8_py_probe_behavior :
    (∀ (env : Env) (output : String),
      env tfPyCmd = .ok output →
      rustIsEmpty (rustTrim output) = false →
      containsSub (rustTrim output) "not found" = false →
      containsSub (rustTrim output) "No module" = false →
      containsSub (rustTrim output) "WARNING" = false →
      get_tensorflow_version env = .ok (rustTrim output)) ∧
    (∀ (env : Env) (output : String),
      env ptPyCmd = .ok output →
      rustIsEmpty (rustTrim output) = false →
      containsSub (rustTrim output) "not found" = false →
      containsSub (rustTrim output) "No module" = false →
      containsSub (rustTrim output) "WARNING" = false →
      get_pytorch_version env = .ok (rustTrim output)) ∧
    (∀ output : String, containsSub (rustTrim output) "WARNING" = true →
      pyProbeParse output = none) := by
  have hparse : ∀ output : String,
      rustIsEmpty (rustTrim output) = false →
      containsSub (rustTrim output) "not found" = false →
      containsSub (rustTrim output) "No module" = false →
      containsSub (rustTrim output) "WARNING" = false →
      pyProbeParse output = some (rustTrim output) := by
    intro output h2 h3 h4 h5
    simp only [pyProbeParse, h2, h3, h4, h5]
    simp
  refine ⟨?_, ?_, ?_⟩
  · intro env output h1 h2 h3 h4 h5
    unfold get_tensorflow_version tfStrategies
    apply chainRun_cons_ok
    unfold stratSucceeds
    rw [h1]
    exact hparse output h2 h3 h4 h5
  · intro env output h1 h2 h3 h4 h5
    unfold get_pytorch_version ptStrategies
    apply chainRun_cons_ok
    unfold stratSucceeds
    rw [h1]
    exact hparse output h2 h3 h4 h5
  · intro output h
    simp only [pyProbeParse, h]
    simp

/-- A runner whose first TensorFlow probe prints the version token followed
by an embedded warning line; every other probe fails. -/
def c8Env : Env := fun c =>
  if c = tfPyCmd then .ok "2.16.1\nWARNING: deprecation notice\n"
  else .error "probe failed"

/-- Counterexample to C8 as stated: on probe output that contains the
version token `2.16.1` together with an embedded `WARNING` diagnostic line,
the parser does not extract the token — it rejects the output and, all
other strategies failing, the whole chain reports not-found. -/
theorem C8_counterexample :
    containsSub "2.16.1\nWARNING: deprecation notice\n" "2.16.1" = true ∧
    get_tensorflow_version c8Env =
      .error "TensorFlow not found or not installed" := by
  exact ⟨rfl, rfl⟩

/-- A runner whose first TensorFlow probe prints the token surrounded by
blank lines. -/
def c8WitnessEnv : Env := fun c =>
  if c = tfPyCmd then .ok "\n2.16.1\n\n" else .error "probe failed"

/-- Witness for C8 (amended): edge blank lines are trimmed away and the
token is returned. -/
theorem C8_witness : get_tensorflow_version c8WitnessEnv = .ok "2.16.1" :=
  C8_py_probe_behavior.1 c8WitnessEnv "\n2.16.1\n\n" rfl rfl rfl rfl rfl

/-! ## Claim C9 -/

/-- **C9 (amended).**  Every detection entry point except the NVIDIA driver
one returns a normalized token: tokens from the TensorFlow, PyTorch,
toolkit, cuDNN and python detectors are invariant under trimming, i.e. they
carry no leading or trailing whitespace.  The driver entry point is the
exception the counterexample forces: it returns the raw probe stdout
unchanged, which retains any trailing newline `nvidia-smi` prints. -/
theorem C9_detected_tokens_trimmed :
    (∀ (env : Env) (v : String),
      get_tensorflow_version env = .ok v → rustTrim v = v) ∧
    (∀ (env : Env) (v : String),
      get_pytorch_version env = .ok v → rustTrim v = v) ∧
    (∀ (probe : Probe) (v : String),
      get_cuda_toolkit_version probe = .ok v → rustTrim v = v) ∧
    (∀ (probe : Probe) (v : String),
      get_cudnn_version probe = .ok v → rustTrim v = v) ∧
    (∀ (env : Env) (v : String),
      get_python_version env = some v → rustTrim v = v) ∧
    (∀ env : Env, get_nvidia_driver_version env = env driverCmd) :=
  ⟨get_tensorflow_version_trimmed, get_pytorch_version_trimmed,
   get_cuda_toolkit_version_trimmed, get_cudnn_version_trimmed,
   get_python_version_trimmed, fun _ => rfl⟩

/-- A probe whose driver query answers with a trailing newline and whose
other probes fail. -/
def c9Probe : Probe :=
  { run := fun c => if c = driverCmd then .ok "535.104.05\n"
      else .error "probe failed",
    ldLibraryPath := [],
    headerContentAt := fun _ => none,
    findCudnnHeaders := fun _ => [],
    pathDirs := [],
    nvccExists := fun _ => false,
    findNvcc := fun _ => [] }

/-- Counterexample to C9 as stated: the snapshot built by the collector
records the driver version as the raw `nvidia-smi` stdout including its
trailing newline — a token that is not stripped of surrounding
whitespace. -/
theorem C9_counterexample :
    (collect_environment_config c9Probe "os" "arch" "cpu" 16
      "ts" "host").cuda_info.driver_version = some "535.104.05\n" ∧
    rustTrim "535.104.05\n" ≠ "535.104.05\n" := by
  exact ⟨rfl, by decide⟩

/-- A runner whose first TensorFlow probe prints a padded token. -/
def c9TfEnv : Env := fun c =>
  if c = tfPyCmd then .ok " 2.1.0\n" else .error "probe failed"

/-- Witness for C9 (amended): the token detected from padded probe output is
trim-invariant. -/
theorem C9_witness : rustTrim "2.1.0" = "2.1.0" :=
  C9_detected_tokens_trimmed.1 c9TfEnv "2.1.0" rfl

/-! ## Claim C2 -/

/-- **C2.**  The snapshot builder is a total function: it always returns a
complete snapshot whose structural fields carry the inputs, and for each
capability, whenever every strategy of its chain fails outright or succeeds
with unparseable output (`stratSucceeds … = none`, and for the cuDNN
filesystem phases every found header fails to parse), that capability is
recorded in the snapshot as the absent value `none` — never as an error.
The only fallible calls the builder makes are the detectors, and it
consumes each with `Result::ok()`. -/
theorem C2_builder_total_not_detected (probe : Probe)
    (os arch cpu : String) (mem : Rat) (ts host : String) :
    ((collect_environment_config probe os arch cpu mem ts host).timestamp = ts ∧
     (collect_environment_config probe os arch cpu mem ts host).hostname = host ∧
     (collect_environment_config probe os arch cpu mem ts
        host).system_info.os = os ∧
     (collect_environment_config probe os arch cpu mem ts
        host).system_info.arch = arch ∧
     (collect_environment_config probe os arch cpu mem ts
        host).system_info.cpu = cpu ∧
     (collect_environment_config probe os arch cpu mem ts
        host).system_info.total_memory_gb = mem) ∧
    ((∀ s ∈ tfStrategies, stratSucceeds probe.run s = none) →
      (collect_environment_config probe os arch cpu mem ts
        host).frameworks.tensorflow = none) ∧
    ((∀ s ∈ ptStrategies, stratSucceeds probe.run s = none) →
      (collect_environment_config probe os arch cpu mem ts
        host).frameworks.pytorch = none) ∧
    ((∀ s ∈ toolkitStrategies probe, stratSucceeds probe.run s = none) →
      (collect_environment_config probe os arch cpu mem ts
        host).cuda_info.cuda_version = none) ∧
    ((∀ c ∈ probe.ldLibraryPath.filterMap
        (fun p => probe.headerContentAt (p ++ "/cudnn_version.h")),
        ∃ e, extract_cudnn_version_from_header c = .error e) →
     (∀ c ∈ cudnnSearchPaths.flatMap probe.findCudnnHeaders,
        ∃ e, extract_cudnn_version_from_header c = .error e) →
     (∀ s ∈ cudnnPyStrategies, stratSucceeds probe.run s = none) →
      (collect_environment_config probe os arch cpu mem ts
        host).cuda_info.cudnn_version = none) ∧
    ((∃ e, probe.run driverCmd = .error e) →
      (collect_environment_config probe os arch cpu mem ts
        host).cuda_info.driver_version = none) := by
  refine ⟨⟨rfl, rfl, rfl, rfl, rfl, rfl⟩, ?_, ?_, ?_, ?_, ?_⟩
  · intro h
    show (get_tensorflow_version probe.run).toOption = none
    unfold get_tensorflow_version
    rw [chainRun_exhausted probe.run tfStrategies _ h]
    rfl
  · intro h
    show (get_pytorch_version probe.run).toOption = none
    unfold get_pytorch_version
    rw [chainRun_exhausted probe.run ptStrategies _ h]
    rfl
  · intro h
    show (get_cuda_toolkit_version probe).toOption = none
    unfold get_cuda_toolkit_version
    rw [chainRun_exhausted probe.run (toolkitStrategies probe) _ h]
    rfl
  · intro h1 h2 h3
    show (get_cudnn_version probe).toOption = none
    unfold get_cudnn_version
    rw [scanHeaders_none _ h1, scanHeaders_none _ h2,
        chainRun_exhausted probe.run cudnnPyStrategies _ h3]
    rfl
  · rintro ⟨e, he⟩
    show (get_nvidia_driver_version probe.run).toOption = none
    unfold get_nvidia_driver_version
    rw [he]
    rfl

/-- A probe on which every external observation fails: every command errors,
no directory holds a header, every walk is empty. -/
def failProbe : Probe :=
  { run := fun _ => .error "probe failed",
    ldLibraryPath := [],
    headerContentAt := fun _ => none,
    findCudnnHeaders := fun _ => [],
    pathDirs := [],
    nvccExists := fun _ => false,
    findNvcc := fun _ => [] }

/-- Witness for C2: under the all-failing probe the builder still returns a
complete snapshot, with every capability absent and the structural fields
intact. -/
theorem C2_witness :
    (collect_environment_config failProbe "Ubuntu" "x86_64" "cpu0" 16
      "2024-01-01T00:00:00Z" "host0").frameworks.tensorflow = none ∧
    (collect_environment_config failProbe "Ubuntu" "x86_64" "cpu0" 16
      "2024-01-01T00:00:00Z" "host0").frameworks.pytorch = none ∧
    (collect_environment_config failProbe "Ubuntu" "x86_64" "cpu0" 16
      "2024-01-01T00:00:00Z" "host0").cuda_info.cuda_version = none ∧
    (collect_environment_config failProbe "Ubuntu" "x86_64" "cpu0" 16
      "2024-01-01T00:00:00Z" "host0").cuda_info.cudnn_version = none ∧
    (collect_environment_config failProbe "Ubuntu" "x86_64" "cpu0" 16
      "2024-01-01T00:00:00Z" "host0").cuda_info.driver_version = none ∧
    (collect_environment_config failProbe "Ubuntu" "x86_64" "cpu0" 16
      "2024-01-01T00:00:00Z" "host0").timestamp = "2024-01-01T00:00:00Z" :=
  ⟨(C2_builder_total_not_detected failProbe "Ubuntu" "x86_64" "cpu0" 16
      "2024-01-01T00:00:00Z" "host0").2.1 (fun _ _ => rfl),
   (C2_builder_total_not_detected failProbe "Ubuntu" "x86_64" "cpu0" 16
      "2024-01-01T00:00:00Z" "host0").2.2.1 (fun _ _ => rfl),
   (C2_builder_total_not_detected failProbe "Ubuntu" "x86_64" "cpu0" 16
      "2024-01-01T00:00:00Z" "host0").2.2.2.1 (fun _ _ => rfl),
   (C2_builder_total_not_detected failProbe "Ubuntu" "x86_64" "cpu0" 16
      "2024-01-01T00:00:00Z" "host0").2.2.2.2.1
     (fun c hc => absurd hc (List.not_mem_nil c))
     (fun c hc => absurd hc (List.not_mem_nil c))
     (fun _ _ => rfl),
   (C2_builder_total_not_detected failProbe "Ubuntu" "x86_64" "cpu0" 16
      "2024-01-01T00:00:00Z" "host0").2.2.2.2.2 ⟨"probe failed", rfl⟩,
   (C2_builder_total_not_detected failProbe "Ubuntu" "x86_64" "cpu0" 16
      "2024-01-01T00:00:00Z" "host0").1.1⟩

/-! ## Claim C7 -/

/-- A well-formed document carrying only the required members: every
optional capability field, the optional system field and both optional
device fields are absent. -/
def minimalDoc : Json :=
  .obj [("system_info", .obj [("os", .str "Ubuntu"), ("arch", .str "x86_64"),
          ("cpu", .str "cpu0"), ("total_memory_gb", .num 16)]),
        ("cuda_info", .obj [("gpus", .arr [.obj [("name", .str "NVIDIA A100")]])]),
        ("frameworks", .obj []),
        ("timestamp", .str "2024-01-01T00:00:00Z"),
        ("hostname", .str "host0")]

/-- The snapshot `minimalDoc` decodes to. -/
def minimalConfig : EnvironmentConfig :=
  { system_info :=
      { os := "Ubuntu", arch := "x86_64", cpu := "cpu0",
        total_memory_gb := 16, python_version := none },
    cuda_info :=
      { driver_version := none, cuda_version := none, cudnn_version := none,
        gpus := [{ name := "NVIDIA A100", memory_gb := none,
                   compute_capability := none }] },
    frameworks := { tensorflow := none, pytorch := none },
    timestamp := "2024-01-01T00:00:00Z",
    hostname := "host0" }

/-- **C7 (amended).**  Decoding fails on malformed structure (a non-object
document) and on missing required structural fields — a document without
`timestamp`, or without `hostname`, never decodes, so no default is
fabricated for either — while every optional capability and device field
may be entirely absent and a well-formed decode still succeeds with those
fields absent.  Unknown members, however, are silently ignored (the derived
deserializer has no `deny_unknown_fields`), not rejected: appending an
unknown member leaves the decode result unchanged. -/
theorem C7_decode_required_fields :
    (∀ j : Json, (∀ fields, j ≠ Json.obj fields) →
      (decodeConfig j).isOk = false) ∧
    (∀ fields : List (String × Json), fields.lookup "timestamp" = none →
      (decodeConfig (.obj fields)).isOk = false) ∧
    (∀ fields : List (String × Json), fields.lookup "hostname" = none →
      (decodeConfig (.obj fields)).isOk = false) ∧
    (∀ (fields : List (String × Json)) (name : String) (j : Json),
      name ∉ (["system_info", "cuda_info", "frameworks", "timestamp",
        "hostname"] : List String) →
      decodeConfig (.obj (fields ++ [(name, j)])) =
        decodeConfig (.obj fields)) ∧
    decodeConfig minimalDoc = .ok minimalConfig := by
  refine ⟨?_, ?_, ?_, ?_, rfl⟩
  · intro j hj
    cases j with
    | obj fields => exact absurd rfl (hj fields)
    | null => rfl
    | bool b => rfl
    | num q => rfl
    | str s => rfl
    | arr xs => rfl
  · intro fields hts
    cases hok : (decodeConfig (.obj fields)).isOk with
    | false => rfl
    | true =>
      exfalso
      simp only [decodeConfig] at hok
      obtain ⟨sj, h1, hok⟩ := (except_isOk_bind _ _).1 hok
      obtain ⟨si, h2, hok⟩ := (except_isOk_bind _ _).1 hok
      obtain ⟨cj, h3, hok⟩ := (except_isOk_bind _ _).1 hok
      obtain ⟨ci, h4, hok⟩ := (except_isOk_bind _ _).1 hok
      obtain ⟨fj, h5, hok⟩ := (except_isOk_bind _ _).1 hok
      obtain ⟨fw, h6, hok⟩ := (except_isOk_bind _ _).1 hok
      obtain ⟨tsv, h7, hok⟩ := (except_isOk_bind _ _).1 hok
      rw [reqStr, hts] at h7
      cases h7
  · intro fields hhost
    cases hok : (decodeConfig (.obj fields)).isOk with
    | false => rfl
    | true =>
      exfalso
      simp only [decodeConfig] at hok
      obtain ⟨sj, h1, hok⟩ := (except_isOk_bind _ _).1 hok
      obtain ⟨si, h2, hok⟩ := (except_isOk_bind _ _).1 hok
      obtain ⟨cj, h3, hok⟩ := (except_isOk_bind _ _).1 hok
      obtain ⟨ci, h4, hok⟩ := (except_isOk_bind _ _).1 hok
      obtain ⟨fj, h5, hok⟩ := (except_isOk_bind _ _).1 hok
      obtain ⟨fw, h6, hok⟩ := (except_isOk_bind _ _).1 hok
      obtain ⟨tsv, h7, hok⟩ := (except_isOk_bind _ _).1 hok
      obtain ⟨hv, h8, hok⟩ := (except_isOk_bind _ _).1 hok
      rw [reqStr, hhost] at h8
      cases h8
  · intro fields name j hname
    have hne : ∀ k : String,
        k ∈ (["system_info", "cuda_info", "frameworks", "timestamp",
          "hostname"] : List String) → k ≠ name :=
      fun k hk hkn => hname (hkn ▸ hk)
    have hlk : ∀ k : String, k ≠ name →
        (fields ++ [(name, j)]).lookup k = fields.lookup k := by
      intro k hk
      rw [List.lookup_append]
      have hbeq : (k == name) = false := beq_eq_false_iff_ne.2 hk
      have hone : ([(name, j)] : List (String × Json)).lookup k = none := by
        simp [List.lookup, hbeq]
      rw [hone]
      exact Option.or_none
    simp only [decodeConfig, reqField, reqStr]
    rw [hlk "system_info" (hne _ (by simp)),
        hlk "cuda_info" (hne _ (by simp)),
        hlk "frameworks" (hne _ (by simp)),
        hlk "timestamp" (hne _ (by simp)),
        hlk "hostname" (hne _ (by simp))]

/-- A well-formed document that additionally carries an unknown member. -/
def c7Doc : Json :=
  .obj [("system_info", .obj [("os", .str "Ubuntu"), ("arch", .str "x86_64"),
          ("cpu", .str "cpu0"), ("total_memory_gb", .num 16)]),
        ("cuda_info", .obj [("gpus", .arr [])]),
        ("frameworks", .obj []),
        ("timestamp", .str "2024-01-01T00:00:00Z"),
        ("hostname", .str "host0"),
        ("future_extension", .num 1)]

/-- The snapshot `c7Doc` decodes to. -/
def c7Config : EnvironmentConfig :=
  { system_info :=
      { os := "Ubuntu", arch := "x86_64", cpu := "cpu0",
        total_memory_gb := 16, python_version := none },
    cuda_info :=
      { driver_version := none, cuda_version := none, cudnn_version := none,
        gpus := [] },
    frameworks := { tensorflow := none, pytorch := none },
    timestamp := "2024-01-01T00:00:00Z",
    hostname := "host0" }

/-- Counterexample to C7 as stated: a document containing an unknown member
(`future_extension`) decodes successfully — decoding does not fail on
unknown fields. -/
theorem C7_counterexample : decodeConfig c7Doc = .ok c7Config := rfl

end CudaDoctor
